import Mathlib

/-!
Session controller of the interview bot.

Shallow embedding of the React component `App` of `frontend/src/App.js`.

The component keeps four pieces of React state (`appState`, `messages`,
`finalFeedback`, `isAudioUnlocked`).  Every handler of the component is
embedded as a function from the values its closure reads (the render snapshot)
and the outcome of the external call it awaits to the list of statements it
executes, in source order: React state updates (`setAppState`, `setMessages`,
`setFinalFeedback`, `setIsAudioUnlocked`) and calls to the outside world (the
three HTTP calls, the media recorder, the audio player).  `run` replays such a
list on a state of the component; a functional update
`setMessages(prev => [...prev, x])` reads the state it is replayed on, a plain
`setMessages(v)` overwrites it.

JSON decoding and HTTP are not part of the repository; a reply is therefore
given as data: either the call threw, or it returned a body together with the
result of decoding the header the handler reads.
-/

namespace InterviewBot

/-- The values of `appState` (App.js line 10). -/
inductive AppState where
  | welcome
  | starting
  | interview
  | recording
  | speaking
  | processing
  | summarizing
  | finished
  deriving DecidableEq, Repr

/-- An entry of `messages`: `{ sender, text }`. -/
structure Message where
  sender : String
  text : String
  deriving DecidableEq, Repr

/-- An entry of the history exchanged with the backend: `{ role, content }`. -/
structure HistoryEntry where
  role : String
  content : String
  deriving DecidableEq, Repr

/-- A binary payload; only its `size` is ever inspected by the component. -/
structure Blob where
  size : Nat
  deriving DecidableEq, Repr

/-- The blob built by `new Blob(parts)`: its size is the sum of the sizes of the parts. -/
def Blob.ofParts (parts : List Blob) : Blob :=
  ⟨(parts.map Blob.size).sum⟩

/-- The React state of the component (the four `useState` cells, lines 11-20). -/
structure Model where
  appState : AppState
  messages : List Message
  finalFeedback : Option String
  isAudioUnlocked : Bool
  deriving DecidableEq, Repr

/-- The state of the first render: `appState` is `welcome`, `messages` is empty,
`finalFeedback` is `null` and `isAudioUnlocked` is `false` (lines 11-20). -/
def Model.init : Model :=
  ⟨.welcome, [], none, false⟩

/-- What became of a response header that a handler decodes with `JSON.parse`:
`absent` when the header is `undefined` (or empty), `malformed` when reading the
wanted field out of `JSON.parse(header)` throws, `parsed v` when it yields `v`. -/
inductive Header (α : Type) where
  | absent
  | malformed
  | parsed (value : α)
  deriving DecidableEq, Repr

/-- The outcome of an awaited `axios.post`: the promise rejected, or it resolved to
a response with a body `data` and the header the handler looks at. -/
inductive Reply (α : Type) where
  | networkError
  | response (data : Blob) (header : Header α)
  deriving DecidableEq, Repr

/-- The statements a handler executes: updates of the React state and calls that
leave the component. -/
inductive Action where
  | setAppState (s : AppState)
  | setMessages (ms : List Message)
  | appendMessage (msg : Message)
  | setFinalFeedback (f : Option String)
  | setIsAudioUnlocked (b : Bool)
  | playSilentAudio
  | getStartInterview
  | postInterviewTurn (audio : Blob) (history : List HistoryEntry)
  | postEndInterviewSummary (history : List HistoryEntry)
  | playAudio (audio : Blob)
  | mediaRecorderStart
  | mediaRecorderStop
  deriving DecidableEq, Repr

/-- Effect of one statement on the React state.  `appendMessage x` is
`setMessages(prev => [...prev, x])`; calls to the outside leave the state alone. -/
def Action.apply (m : Model) : Action → Model
  | .setAppState s => { m with appState := s }
  | .setMessages ms => { m with messages := ms }
  | .appendMessage msg => { m with messages := m.messages ++ [msg] }
  | .setFinalFeedback f => { m with finalFeedback := f }
  | .setIsAudioUnlocked b => { m with isAudioUnlocked := b }
  | .playSilentAudio => m
  | .getStartInterview => m
  | .postInterviewTurn _ _ => m
  | .postEndInterviewSummary _ => m
  | .playAudio _ => m
  | .mediaRecorderStart => m
  | .mediaRecorderStop => m

/-- Replay a list of statements, first to last. -/
def run (m : Model) (acts : List Action) : Model :=
  acts.foldl Action.apply m

/-- The interview-turn calls (`POST /interview_turn`) among the statements. -/
def turnCalls : List Action → List (Blob × List HistoryEntry)
  | [] => []
  | .postInterviewTurn audio history :: rest => (audio, history) :: turnCalls rest
  | _ :: rest => turnCalls rest

/-- The end-of-session calls (`POST /end_interview_summary`) among the statements. -/
def endCalls : List Action → List (List HistoryEntry)
  | [] => []
  | .postEndInterviewSummary history :: rest => history :: endCalls rest
  | _ :: rest => endCalls rest

/-- The payloads handed to `playAudio` among the statements. -/
def playbacks : List Action → List Blob
  | [] => []
  | .playAudio audio :: rest => audio :: playbacks rest
  | _ :: rest => playbacks rest

/-- How often the statements call `mediaRecorderRef.current.stop()`. -/
def recorderStops : List Action → Nat
  | [] => 0
  | .mediaRecorderStop :: rest => recorderStops rest + 1
  | _ :: rest => recorderStops rest

/-- The arrow function mapped over `messages` in lines 103 and 126: the role is
`user` when the sender is `user` and `assistant` otherwise, the content is the
text. -/
def toHistoryEntry (msg : Message) : HistoryEntry :=
  ⟨if msg.sender = "user" then "user" else "assistant", msg.text⟩

/-- The history sent to the backend: `messages.map(...)` of lines 103 and 126. -/
def toHistory (messages : List Message) : List HistoryEntry :=
  messages.map toHistoryEntry

/-- The arrow function mapped over `conversationData.history` in line 138: the
sender is `user` when the role is `user` and `bot` otherwise, the text is the
content. -/
def toMessage (msg : HistoryEntry) : Message :=
  ⟨if msg.role = "user" then "user" else "bot", msg.content⟩

/-- The transcript built from a returned history: `conversationData.history.map(...)`
of line 138. -/
def toMessages (history : List HistoryEntry) : List Message :=
  history.map toMessage

/-- The bot message shown when the start call succeeds (line 86). -/
def openingPrompt : Message :=
  ⟨"bot", "Hello! Welcome to the mock interview session with the Malaysian Student Initiative. To begin, could you please tell me a little bit about yourself and what field of study you are planning to pursue?"⟩

/-- The bot message shown when the start call fails (line 92). -/
def connectionError : Message :=
  ⟨"bot", "Error connecting to the server. Please try again."⟩

/-- The placeholder appended by `endInterview` (line 105). -/
def endingPlaceholder : Message :=
  ⟨"bot", "Interview ended. Generating your final feedback..."⟩

/-- The placeholder appended by `sendAudioToServer` (line 130). -/
def processingPlaceholder : Message :=
  ⟨"user", "You spoke. (Processing...)"⟩

/-- The feedback stored when the end-of-session call fails (line 120). -/
def feedbackError : String :=
  "An error occurred while generating your feedback."

/-- The listener of the `ended` event of the player (lines 29-39), for the `appState`
of the render that registered it. -/
def handleAudioEnd (appState : AppState) : List Action :=
  if appState = .summarizing then [.setAppState .finished]
  else if appState = .speaking then [.setAppState .interview]
  else []

/-- The `catch` branch of `playAudio` (lines 58-66), for the `appState` its
closure reads. -/
def playAudioCatch (appState : AppState) : List Action :=
  if appState = .summarizing ∨ appState = .speaking then [.setAppState .finished]
  else [.setAppState .interview]

/-- The body of `playAudio` (lines 52-67): `played` tells whether `player.play()`
resolved; when it did nothing of the React state is written. -/
def playAudio (appState : AppState) (played : Bool) : List Action :=
  if played then [] else playAudioCatch appState

/-- The body of `startInterview` up to the awaited `axios.get` (lines 71-83). -/
def startInterviewBegin (isAudioUnlocked : Bool) : List Action :=
  [.setMessages [], .setFinalFeedback none, .setAppState .starting]
    ++ (if isAudioUnlocked then [] else [.playSilentAudio, .setIsAudioUnlocked true])
    ++ [.getStartInterview]

/-- The rest of `startInterview` once `axios.get` settles (lines 86-92):
`some data` is the response body, `none` a rejected call. -/
def startInterviewResume : Option Blob → List Action
  | some data => [.setMessages [openingPrompt], .setAppState .speaking, .playAudio data]
  | none => [.setAppState .welcome, .setMessages [connectionError]]

/-- The handler `startInterview` (lines 69-94). -/
def startInterview (isAudioUnlocked : Bool) (response : Option Blob) : List Action :=
  startInterviewBegin isAudioUnlocked ++ startInterviewResume response

/-- The body of `endInterview` up to the awaited `axios.post` (lines 97-108),
once the guard of line 101 has let it through. -/
def endInterviewBegin (messages : List Message) : List Action :=
  [.setAppState .summarizing, .appendMessage endingPlaceholder,
    .postEndInterviewSummary (toHistory messages)]

/-- The rest of `endInterview` once `axios.post` settles (lines 112-121).  The
header is `x-feedback-text`; its parsed value is `feedbackData.text`. -/
def endInterviewResume : Reply (Option String) → List Action
  | .response data .absent => [.playAudio data]
  | .response data (.parsed text) => [.setFinalFeedback text, .playAudio data]
  | .response _ .malformed => [.setFinalFeedback (some feedbackError), .setAppState .finished]
  | .networkError => [.setFinalFeedback (some feedbackError), .setAppState .finished]

/-- The handler `endInterview` (lines 96-123), for the `appState` and `messages`
its closure reads. -/
def endInterview (appState : AppState) (messages : List Message)
    (reply : Reply (Option String)) : List Action :=
  (if appState = .recording then [.mediaRecorderStop] else [])
    ++ (if appState ≠ .interview ∧ appState ≠ .speaking ∧ appState ≠ .processing then []
        else endInterviewBegin messages ++ endInterviewResume reply)

/-- The body of `sendAudioToServer` up to the awaited `axios.post` (lines 126-133). -/
def sendAudioToServerBegin (messages : List Message) (audioBlob : Blob) : List Action :=
  [.appendMessage processingPlaceholder, .setAppState .processing,
    .postInterviewTurn audioBlob (toHistory messages)]

/-- The rest of `sendAudioToServer` once `axios.post` settles (lines 137-143).
The header is `x-conversation-data`; its parsed value is `conversationData.history`.
`JSON.parse(undefined)` throws, so an absent header ends in the `catch` branch. -/
def sendAudioToServerResume : Reply (List HistoryEntry) → List Action
  | .response data (.parsed history) =>
      [.setMessages (toMessages history), .setAppState .speaking, .playAudio data]
  | .response _ .absent => [.setAppState .interview]
  | .response _ .malformed => [.setAppState .interview]
  | .networkError => [.setAppState .interview]

/-- The function `sendAudioToServer` (lines 125-145), for the `messages` its
closure reads. -/
def sendAudioToServer (messages : List Message) (audioBlob : Blob)
    (reply : Reply (List HistoryEntry)) : List Action :=
  sendAudioToServerBegin messages audioBlob ++ sendAudioToServerResume reply

/-- The `onstop` handler installed by `startRecording` (line 147), for the chunks
collected in `audioChunksRef.current`. -/
def onstop (messages : List Message) (audioChunks : List Blob)
    (reply : Reply (List HistoryEntry)) : List Action :=
  if (Blob.ofParts audioChunks).size > 1000 then
    sendAudioToServer messages (Blob.ofParts audioChunks) reply
  else [.setAppState .interview]

/-- The handler `startRecording` (line 147): `granted` tells whether
`getUserMedia` and the recorder construction went through. -/
def startRecording (appState : AppState) (granted : Bool) : List Action :=
  if appState ≠ .interview then []
  else if granted then [.mediaRecorderStart, .setAppState .recording]
  else []

/-- The handler `stopRecording` (line 148), with `hasRecorder` the truthiness of
`mediaRecorderRef.current`. -/
def stopRecording (appState : AppState) (hasRecorder : Bool) : List Action :=
  if hasRecorder ∧ appState = .recording then [.mediaRecorderStop] else []

/-- The handler `handleRecordClick` (line 149). -/
def handleRecordClick (appState : AppState) (hasRecorder granted : Bool) : List Action :=
  if appState = .recording then stopRecording appState hasRecorder
  else if appState = .interview then startRecording appState granted
  else []

/-- The click handler of the button "Finish & Return to Main Menu" (line 201). -/
def resetClick : List Action :=
  [.setAppState .welcome]

/-- The statements of a handler followed by those of the `playAudio` call it makes
(lines 88, 117 and 140), if it makes one.  `playAudio` is a constant of the same
render as the handler that calls it, so its `catch` branch reads the `appState`
that handler reads, not the state the component has when `player.play()`
settles. -/
def withPlayAudio (appState : AppState) (acts : List Action) (played : Bool) : List Action :=
  acts ++ (if playbacks acts = [] then [] else playAudio appState played)

/-! ## Replaying statements -/

theorem run_nil (m : Model) : run m [] = m := rfl

theorem run_cons (m : Model) (a : Action) (acts : List Action) :
    run m (a :: acts) = run (a.apply m) acts := rfl

theorem run_append (m : Model) (xs ys : List Action) :
    run m (xs ++ ys) = run (run m xs) ys := by
  simp [run, List.foldl_append]

theorem turnCalls_append (xs ys : List Action) :
    turnCalls (xs ++ ys) = turnCalls xs ++ turnCalls ys := by
  induction xs with
  | nil => rfl
  | cons a rest ih => cases a <;> simp [turnCalls, ih]

theorem endCalls_append (xs ys : List Action) :
    endCalls (xs ++ ys) = endCalls xs ++ endCalls ys := by
  induction xs with
  | nil => rfl
  | cons a rest ih => cases a <;> simp [endCalls, ih]

theorem playbacks_append (xs ys : List Action) :
    playbacks (xs ++ ys) = playbacks xs ++ playbacks ys := by
  induction xs with
  | nil => rfl
  | cons a rest ih => cases a <;> simp [playbacks, ih]

theorem recorderStops_append (xs ys : List Action) :
    recorderStops (xs ++ ys) = recorderStops xs + recorderStops ys := by
  induction xs with
  | nil => simp [recorderStops]
  | cons a rest ih => cases a <;> simp [recorderStops, ih]; omega

/-! ## The end-interview guard -/

/-- C1, evaluated at the failing input: in state `recording`, where the button
"End Interview" is enabled, `endInterview` is not a no-op.  It calls
`mediaRecorderRef.current.stop()` once and then returns at its guard, so the
capture session is touched and no end-of-session call is issued.  The stop event
then runs `onstop` with the transcript the recording was started from: a short
recording puts the state back to `interview`, a long one is posted as an
interview turn; the end-of-session call is issued in neither case. -/
theorem endInterview_recording_stops_capture :
    endInterview .recording [openingPrompt] .networkError = [.mediaRecorderStop] ∧
      recorderStops (endInterview .recording [openingPrompt] .networkError) = 1 ∧
      ¬ recorderStops (endInterview .recording [openingPrompt] .networkError) = 0 ∧
      endCalls (endInterview .recording [openingPrompt] .networkError) = [] ∧
      (run ⟨.recording, [openingPrompt], none, true⟩
          (endInterview .recording [openingPrompt] .networkError
            ++ onstop [openingPrompt] [⟨400⟩, ⟨300⟩] .networkError)).appState = .interview ∧
      endCalls (endInterview .recording [openingPrompt] .networkError
          ++ onstop [openingPrompt] [⟨400⟩, ⟨300⟩] .networkError) = [] ∧
      turnCalls (endInterview .recording [openingPrompt] .networkError
          ++ onstop [openingPrompt] [⟨800⟩, ⟨700⟩] .networkError)
        = [(⟨1500⟩, toHistory [openingPrompt])] ∧
      endCalls (endInterview .recording [openingPrompt] .networkError
          ++ onstop [openingPrompt] [⟨800⟩, ⟨700⟩] .networkError) = [] := by
  refine ⟨rfl, rfl, ?_, rfl, rfl, rfl, rfl, rfl⟩
  decide

/-! ## Playback events -/

/-- C2, evaluated at the failing input: "End Interview" is pressed in state
`interview`, the end-of-session call succeeds and the state is `summarizing`
when `player.play()` rejects.  The `catch` branch of `playAudio` reads the
`appState` of the render `endInterview` belongs to, which is `interview`, so it
sets the state to `interview`; the playback-finished event in `summarizing`
sets it to `finished`. -/
theorem playAudio_stale_closure_summarizing :
    (run ⟨.interview, [openingPrompt], none, true⟩
        (endInterview .interview [openingPrompt] (.response ⟨2000⟩ .absent))).appState
        = .summarizing ∧
      playbacks (endInterview .interview [openingPrompt] (.response ⟨2000⟩ .absent))
        = [⟨2000⟩] ∧
      withPlayAudio .interview
          (endInterview .interview [openingPrompt] (.response ⟨2000⟩ .absent)) false
        = endInterview .interview [openingPrompt] (.response ⟨2000⟩ .absent)
            ++ [.setAppState .interview] ∧
      (run ⟨.interview, [openingPrompt], none, true⟩
          (withPlayAudio .interview
            (endInterview .interview [openingPrompt] (.response ⟨2000⟩ .absent))
            false)).appState = .interview ∧
      (run (run ⟨.interview, [openingPrompt], none, true⟩
            (endInterview .interview [openingPrompt] (.response ⟨2000⟩ .absent)))
          (handleAudioEnd .summarizing)).appState = .finished ∧
      (run ⟨.interview, [openingPrompt], none, true⟩
          (withPlayAudio .interview
            (endInterview .interview [openingPrompt] (.response ⟨2000⟩ .absent))
            false)).appState
        ≠ (run (run ⟨.interview, [openingPrompt], none, true⟩
              (endInterview .interview [openingPrompt] (.response ⟨2000⟩ .absent)))
            (handleAudioEnd .summarizing)).appState := by
  refine ⟨rfl, rfl, rfl, rfl, rfl, ?_⟩
  decide

/-- C3: the playback-finished event sets the state to `finished` exactly when the
state is `summarizing` and to `interview` exactly when it is `speaking`; in each
of the other six states it executes nothing and the state stays what it was.
Transcript and final feedback are unchanged in all cases. -/
theorem handleAudioEnd_spec (m : Model) :
    (Action.setAppState .finished ∈ handleAudioEnd m.appState ↔ m.appState = .summarizing) ∧
      (Action.setAppState .interview ∈ handleAudioEnd m.appState ↔ m.appState = .speaking) ∧
      (m.appState = .summarizing ∨ m.appState = .speaking ∨ handleAudioEnd m.appState = []) ∧
      (run m (handleAudioEnd m.appState)).appState
        = (if m.appState = .summarizing then .finished
           else if m.appState = .speaking then .interview else m.appState) ∧
      (run m (handleAudioEnd m.appState)).messages = m.messages ∧
      (run m (handleAudioEnd m.appState)).finalFeedback = m.finalFeedback := by
  obtain ⟨s, ms, f, u⟩ := m
  cases s <;> simp [handleAudioEnd, run, Action.apply]

/-! ## The interview turn -/

/-- C4: when the turn call returns the history `history`, the transcript becomes
the image of `history`, whatever transcript was held before (the optimistic
placeholder included): same length, entry `i` has the content of `history[i]`
as text and the speaker of `history[i]` (role `user` as sender `user`, role
`assistant` as sender `bot`); the state becomes `speaking` and the returned
audio is handed to playback. -/
theorem turn_response_replaces_transcript (history : List HistoryEntry)
    (data audioBlob : Blob) (m : Model) :
    (run m (sendAudioToServerResume (.response data (.parsed history)))).messages
        = toMessages history ∧
      (run m (sendAudioToServer m.messages audioBlob
          (.response data (.parsed history)))).messages = toMessages history ∧
      (run m (sendAudioToServerResume (.response data (.parsed history)))).appState
        = .speaking ∧
      (run m (sendAudioToServer m.messages audioBlob
          (.response data (.parsed history)))).appState = .speaking ∧
      (toMessages history).length = history.length ∧
      (∀ i : Nat, ((toMessages history)[i]?).map Message.text
          = (history[i]?).map HistoryEntry.content) ∧
      (∀ i : Nat, ((toMessages history)[i]?).map Message.sender
          = (history[i]?).map (fun e => if e.role = "user" then "user" else "bot")) ∧
      (∀ c : String, toMessage ⟨"user", c⟩ = ⟨"user", c⟩
          ∧ toMessage ⟨"assistant", c⟩ = ⟨"bot", c⟩) ∧
      playbacks (sendAudioToServerResume (.response data (.parsed history))) = [data] := by
  refine ⟨rfl, rfl, rfl, rfl, ?_, ?_, ?_, ?_, rfl⟩
  · simp [toMessages]
  · intro i
    simp only [toMessages, List.getElem?_map, Option.map_map]
    rfl
  · intro i
    simp only [toMessages, List.getElem?_map, Option.map_map]
    rfl
  · intro c
    constructor
    · rfl
    · simp [toMessage]

/-- C5: the history sent with the interview-turn call and with the end-of-session
call is the transcript `T` the handler reads, entry for entry: as many entries as
`T`, entry `i` has the text of `T[i]` as content and role `user` when `T[i]` is
tagged `user` and `assistant` otherwise.  The placeholder the same action
appends to the transcript is not part of the history. -/
theorem history_sent_is_transcript (T : List Message) (audioBlob : Blob)
    (turnReply : Reply (List HistoryEntry)) (endReply : Reply (Option String))
    (m : Model) :
    turnCalls (sendAudioToServer T audioBlob turnReply) = [(audioBlob, toHistory T)] ∧
      endCalls (endInterview .interview T endReply) = [toHistory T] ∧
      endCalls (endInterview .speaking T endReply) = [toHistory T] ∧
      endCalls (endInterview .processing T endReply) = [toHistory T] ∧
      (toHistory T).length = T.length ∧
      (∀ i : Nat, ((toHistory T)[i]?).map HistoryEntry.content
          = (T[i]?).map Message.text) ∧
      (∀ i : Nat, ((toHistory T)[i]?).map HistoryEntry.role
          = (T[i]?).map (fun msg => if msg.sender = "user" then "user" else "assistant")) ∧
      (run { m with messages := T } (sendAudioToServerBegin T audioBlob)).messages
        = T ++ [processingPlaceholder] ∧
      (run { m with messages := T } (endInterviewBegin T)).messages
        = T ++ [endingPlaceholder] ∧
      toHistory T ≠ toHistory (T ++ [processingPlaceholder]) ∧
      toHistory T ≠ toHistory (T ++ [endingPlaceholder]) := by
  have hturn : turnCalls (sendAudioToServerResume turnReply) = [] := by
    rcases turnReply with _ | ⟨data, _ | _ | history⟩ <;> rfl
  have hend : endCalls (endInterviewResume endReply) = [] := by
    rcases endReply with _ | ⟨data, _ | _ | text⟩ <;> rfl
  have hne : ∀ x : Message, toHistory T ≠ toHistory (T ++ [x]) := by
    intro x hx
    have hlen := congrArg List.length hx
    simp [toHistory] at hlen
  refine ⟨?_, ?_, ?_, ?_, ?_, ?_, ?_, rfl, rfl, hne _, hne _⟩
  · rw [sendAudioToServer, turnCalls_append, hturn]
    rfl
  · simp [endInterview, endCalls_append, hend, endInterviewBegin, endCalls]
  · simp [endInterview, endCalls_append, hend, endInterviewBegin, endCalls]
  · simp [endInterview, endCalls_append, hend, endInterviewBegin, endCalls]
  · simp [toHistory]
  · intro i
    simp only [toHistory, List.getElem?_map, Option.map_map]
    rfl
  · intro i
    simp only [toHistory, List.getElem?_map, Option.map_map]
    rfl

/-- C6: when capture stops with `n` bytes recorded, `n ≤ 1000` issues no
interview-turn call, leaves the transcript unchanged and sets the state to
`interview`; `n > 1000` runs `sendAudioToServer` on the recorded blob: the turn
call is issued with that blob and the state becomes `processing`. -/
theorem onstop_threshold (messages : List Message) (audioChunks : List Blob)
    (reply : Reply (List HistoryEntry)) (m : Model) :
    (Blob.ofParts audioChunks).size = (audioChunks.map Blob.size).sum ∧
      if (Blob.ofParts audioChunks).size ≤ 1000 then
        turnCalls (onstop messages audioChunks reply) = [] ∧
          (run m (onstop messages audioChunks reply)).messages = m.messages ∧
          (run m (onstop messages audioChunks reply)).appState = .interview
      else
        onstop messages audioChunks reply
            = sendAudioToServerBegin messages (Blob.ofParts audioChunks)
                ++ sendAudioToServerResume reply ∧
          turnCalls (onstop messages audioChunks reply)
            = [(Blob.ofParts audioChunks, toHistory messages)] ∧
          (run m (sendAudioToServerBegin messages (Blob.ofParts audioChunks))).appState
            = .processing := by
  refine ⟨rfl, ?_⟩
  have hturn : turnCalls (sendAudioToServerResume reply) = [] := by
    rcases reply with _ | ⟨data, _ | _ | history⟩ <;> rfl
  by_cases h : (Blob.ofParts audioChunks).size ≤ 1000
  · have h2 : ¬ (Blob.ofParts audioChunks).size > 1000 := by omega
    rw [if_pos h]
    simp [onstop, h2, turnCalls, run, Action.apply]
  · have h2 : (Blob.ofParts audioChunks).size > 1000 := by omega
    rw [if_neg h]
    refine ⟨?_, ?_, rfl⟩
    · simp [onstop, h2, sendAudioToServer]
    · simp only [onstop, h2, if_true, sendAudioToServer, turnCalls_append, hturn]
      rfl

/-- C7: a failed interview-turn request (the call rejected, or the conversation
header missing or undecodable) sets the state to `interview` and writes nothing
else: the transcript stays the one held in `processing`, which is the transcript
the turn was submitted from followed by the placeholder
"You spoke. (Processing...)".  No call is repeated and no playback starts. -/
theorem turn_failure_keeps_transcript (m : Model) (data audioBlob : Blob) :
    run m (sendAudioToServerResume .networkError) = { m with appState := .interview } ∧
      run m (sendAudioToServerResume (.response data .absent))
        = { m with appState := .interview } ∧
      run m (sendAudioToServerResume (.response data .malformed))
        = { m with appState := .interview } ∧
      run m (sendAudioToServerBegin m.messages audioBlob)
        = { m with appState := .processing,
                   messages := m.messages ++ [⟨"user", "You spoke. (Processing...)"⟩] } ∧
      run m (sendAudioToServer m.messages audioBlob .networkError)
        = { m with appState := .interview,
                   messages := m.messages ++ [processingPlaceholder] } ∧
      run m (sendAudioToServer m.messages audioBlob (.response data .absent))
        = { m with appState := .interview,
                   messages := m.messages ++ [processingPlaceholder] } ∧
      run m (sendAudioToServer m.messages audioBlob (.response data .malformed))
        = { m with appState := .interview,
                   messages := m.messages ++ [processingPlaceholder] } ∧
      turnCalls (sendAudioToServerResume .networkError) = [] ∧
      turnCalls (sendAudioToServerResume (.response data .absent)) = [] ∧
      turnCalls (sendAudioToServerResume (.response data .malformed)) = [] ∧
      playbacks (sendAudioToServer m.messages audioBlob .networkError) = [] ∧
      playbacks (sendAudioToServer m.messages audioBlob (.response data .absent)) = [] ∧
      playbacks (sendAudioToServer m.messages audioBlob (.response data .malformed)) = [] :=
  ⟨rfl, rfl, rfl, rfl, rfl, rfl, rfl, rfl, rfl, rfl, rfl, rfl, rfl⟩

/-! ## Starting and ending a session -/

/-- C8: from `finished`, with any transcript and any final feedback, reset
followed by a start whose call succeeds gives state `speaking`, a transcript of
exactly one message, tagged `bot` and carrying the opening prompt, and no final
feedback; the playback-finished event that follows gives state `interview`. -/
theorem reset_then_start (T : List Message) (f : Option String) (unlocked : Bool)
    (data : Blob) :
    (run ⟨.finished, T, f, unlocked⟩ resetClick).appState = .welcome ∧
      (run (run ⟨.finished, T, f, unlocked⟩ resetClick)
          (startInterview unlocked (some data))).appState = .speaking ∧
      (run (run ⟨.finished, T, f, unlocked⟩ resetClick)
          (startInterview unlocked (some data))).messages = [openingPrompt] ∧
      openingPrompt.sender = "bot" ∧
      (run (run ⟨.finished, T, f, unlocked⟩ resetClick)
          (startInterview unlocked (some data))).finalFeedback = none ∧
      playbacks (startInterview unlocked (some data)) = [data] ∧
      (run (run (run ⟨.finished, T, f, unlocked⟩ resetClick)
            (startInterview unlocked (some data)))
          (handleAudioEnd (run (run ⟨.finished, T, f, unlocked⟩ resetClick)
            (startInterview unlocked (some data))).appState)).appState = .interview := by
  cases unlocked <;> exact ⟨rfl, rfl, rfl, rfl, rfl, rfl, rfl⟩

/-- C9: in `interview`, `speaking` and `processing`, when the end-of-session call
fails (the call rejected, or the feedback header present but undecodable) the
final feedback is "An error occurred while generating your feedback." and the
state is `finished` as soon as the handler is done: nothing is handed to
playback, so no playback-finished event is involved. -/
theorem end_failure_finishes (s : AppState) (T : List Message) (data : Blob) (m : Model)
    (h : s = .interview ∨ s = .speaking ∨ s = .processing) :
    run { m with appState := s, messages := T } (endInterview s T .networkError)
        = { m with appState := .finished,
                   messages := T ++ [endingPlaceholder],
                   finalFeedback := some "An error occurred while generating your feedback." } ∧
      run { m with appState := s, messages := T }
          (endInterview s T (.response data .malformed))
        = { m with appState := .finished,
                   messages := T ++ [endingPlaceholder],
                   finalFeedback := some "An error occurred while generating your feedback." } ∧
      playbacks (endInterview s T .networkError) = [] ∧
      playbacks (endInterview s T (.response data .malformed)) = [] ∧
      (run m (endInterviewResume .networkError)).appState = .finished ∧
      (run m (endInterviewResume (.response data .malformed))).appState = .finished ∧
      (run m (endInterviewResume .networkError)).finalFeedback = some feedbackError ∧
      (run m (endInterviewResume (.response data .malformed))).finalFeedback
        = some feedbackError := by
  rcases h with h | h | h <;> subst h <;> exact ⟨rfl, rfl, rfl, rfl, rfl, rfl, rfl, rfl⟩

/-- Instance of C9 in state `interview`, for a rejected end-of-session call. -/
theorem end_failure_finishes_witness :
    (AppState.interview = .interview ∨ AppState.interview = .speaking
        ∨ AppState.interview = .processing) ∧
      run ⟨.interview, [openingPrompt], none, true⟩
          (endInterview .interview [openingPrompt] .networkError)
        = ⟨.finished, [openingPrompt, endingPlaceholder],
            some "An error occurred while generating your feedback.", true⟩ :=
  ⟨Or.inl rfl,
    (end_failure_finishes .interview [openingPrompt] ⟨0⟩
      ⟨.interview, [openingPrompt], none, true⟩ (Or.inl rfl)).1⟩

/-! ## The two speaker conversions -/

theorem toMessage_toHistoryEntry (msg : Message)
    (h : msg.sender = "user" ∨ msg.sender = "bot") : toMessage (toHistoryEntry msg) = msg := by
  obtain ⟨sender, text⟩ := msg
  rcases h with h | h
  · simp only at h
    subst h
    rfl
  · simp only at h
    subst h
    simp [toMessage, toHistoryEntry]

/-- C10: on a transcript whose speaker tags are all `user` or `bot`, converting to
a backend history and back yields the transcript again; a turn response that
echoes the history it was sent therefore leaves the transcript the turn was
submitted from. -/
theorem toMessages_toHistory (T : List Message) (audioBlob data : Blob) (m : Model)
    (h : ∀ msg ∈ T, msg.sender = "user" ∨ msg.sender = "bot") :
    toMessages (toHistory T) = T ∧
      (run { m with messages := T } (sendAudioToServer T audioBlob
          (.response data (.parsed (toHistory T))))).messages = T := by
  have hround : toMessages (toHistory T) = T := by
    induction T with
    | nil => rfl
    | cons msg rest ih =>
      have hmsg := toMessage_toHistoryEntry msg (h msg (List.mem_cons_self _ _))
      have hrest := ih (fun x hx => h x (List.mem_cons_of_mem _ hx))
      simp only [toMessages, toHistory, List.map_cons] at hrest ⊢
      rw [hmsg, hrest]
  refine ⟨hround, ?_⟩
  show toMessages (toHistory T) = T
  exact hround

/-- Instance of C10 on a transcript of one bot and one user message. -/
theorem toMessages_toHistory_witness :
    (∀ msg ∈ [openingPrompt, processingPlaceholder],
        msg.sender = "user" ∨ msg.sender = "bot") ∧
      toMessages (toHistory [openingPrompt, processingPlaceholder])
        = [openingPrompt, processingPlaceholder] :=
  ⟨by simp [openingPrompt, processingPlaceholder],
    (toMessages_toHistory [openingPrompt, processingPlaceholder] ⟨0⟩ ⟨0⟩ Model.init
      (by simp [openingPrompt, processingPlaceholder])).1⟩

end InterviewBot
